import Mathlib

/-!
Verification development for the `ai-cli` natural-language command tool.

The development shallowly embeds the three TypeScript modules that the
claims are about:

* `CommandParserService` (pattern resolver and resolution orchestrator),
* `OpenAIService` (AI resolver: configuration check, reply validation,
  error wrapping),
* `NaturalLanguageCommand` (interactive session and shell executor).

Strings are modelled over `List Char`/`String`; the JavaScript string
primitives used by the code (`toLowerCase`, `trim`, `includes`, the four
capture regexes, truthiness of strings, `x || default`) are modelled
explicitly below.  External effects (the OpenAI HTTP call, `spawn`,
`inquirer` prompts) are modelled as explicit parameters carrying their
outcome, as the spec treats them as opaque collaborators.
-/

namespace AiCli

/-- A risk-labeled command (`CommandOption` in `command-parser.service.ts`).
The TypeScript `risk` field is the union type `'low' | 'medium' | 'high'`;
it is modelled as a `String` because the AI path receives raw JSON strings
at runtime and coerces out-of-range values, which is part of what the
claims are about. -/
structure CommandOption where
  command : String
  description : String
  risk : String
  deriving DecidableEq, Repr

/-! ## JavaScript string primitives -/

/-- Whitespace as recognized by JS `trim` / regex `\s` (ASCII fragment). -/
def isWsCh (c : Char) : Bool :=
  c = ' ' || c = '\t' || c = '\n' || c = '\r'

/-- ASCII lowercasing of one character (code points 65–90 are shifted by
32), as JS `toLowerCase` acts on the ASCII range. -/
def toLowerCh (c : Char) : Char :=
  if 65 ≤ c.toNat ∧ c.toNat ≤ 90 then Char.ofNat (c.toNat + 32) else c

/-- Model of `s.trim()` on character lists: drop whitespace at both ends. -/
def trimList (l : List Char) : List Char :=
  ((l.dropWhile isWsCh).reverse.dropWhile isWsCh).reverse

/-- JS `String.prototype.toLowerCase` (ASCII fragment). -/
def jsToLowerCase (s : String) : String :=
  String.mk (s.data.map toLowerCh)

/-- JS `String.prototype.trim`. -/
def jsTrim (s : String) : String :=
  String.mk (trimList s.data)

/-- JS `haystack.includes(needle)`: `needle` occurs as a contiguous
substring of `haystack`. -/
def isSubstr (needle : List Char) : List Char → Bool
  | [] => needle.isPrefixOf []
  | c :: rest => needle.isPrefixOf (c :: rest) || isSubstr needle rest

/-- Truthiness of a possibly-absent JS string value (`undefined`/`null`
and `""` are falsy). -/
def jsTruthy : Option String → Bool
  | none => false
  | some s => s ≠ ""

/-- Model of `x || default` on a possibly-`null` JS string. -/
def jsOrDefault (x : Option String) (d : String) : String :=
  match x with
  | none => d
  | some s => if s = "" then d else s

/-! ## The capture regexes of the four argument extractors

All four extractor regexes have the shape
`/(?:A1|A2|…)\s+(?:B1|…)?\s*['"]?([^'"]+)['"]?/i`,
differing only in the keyword alternations `A` and the optional filler
words `B`.  They are modelled by a direct backtracking matcher for this
shape: leftmost match position wins, alternations are tried in order,
quantifiers are greedy with backtracking. -/

/-- Length of the maximal whitespace run at the front. -/
def wsRun (cs : List Char) : Nat :=
  (cs.takeWhile isWsCh).length

/-- Fragment `['"]?([^'"]+)['"]?` at the current position: optionally consume one
quote, then capture a maximal nonempty run of non-quote characters (the
trailing optional quote never affects the capture). -/
def capAt (cs : List Char) : Option (List Char) :=
  match cs with
  | [] => none
  | c :: rest =>
    if c = '\'' || c = '"' then
      let run := rest.takeWhile (fun d => !(d = '\'' || d = '"'))
      if run = [] then none else some run
    else
      some (cs.takeWhile (fun d => !(d = '\'' || d = '"')))

/-- Fragment `\s*` then the capture, greedy: try consuming `k, k-1, …, 0`
whitespace characters. -/
def tryTail (cs : List Char) : Nat → Option (List Char)
  | 0 => capAt cs
  | k + 1 =>
    match capAt (cs.drop (k + 1)) with
    | some r => some r
    | none => tryTail cs k

/-- Fragment `\s*['"]?([^'"]+)['"]?` at the current position. -/
def tailAt (cs : List Char) : Option (List Char) :=
  tryTail cs (wsRun cs)

/-- Fragment `(?:B1|B2|…)?` then the tail: try each filler alternative in order
(each must be a literal prefix here), then the empty alternative. -/
def restAt (opts : List (List Char)) (cs : List Char) : Option (List Char) :=
  match opts with
  | [] => tailAt cs
  | b :: bs =>
    if b.isPrefixOf cs then
      match tailAt (cs.drop b.length) with
      | some r => some r
      | none => restAt bs cs
    else restAt bs cs

/-- Fragment `\s+` then the rest, greedy: at least one whitespace character, try
the longest run first. -/
def tryWs (opts : List (List Char)) (cs : List Char) : Nat → Option (List Char)
  | 0 => none
  | k + 1 =>
    match restAt opts (cs.drop (k + 1)) with
    | some r => some r
    | none => tryWs opts cs k

/-- Whole pattern anchored at the current position: one keyword
alternative, then `\s+`, then filler, then the capture. -/
def matchAt (alts opts : List (List Char)) (cs : List Char) : Option (List Char) :=
  match alts with
  | [] => none
  | a :: as' =>
    if a.isPrefixOf cs then
      match tryWs opts (cs.drop a.length) (wsRun (cs.drop a.length)) with
      | some r => some r
      | none => matchAt as' opts cs
    else matchAt as' opts cs

/-- Model of `input.match(regex)` for the extractor shape: scan positions left to
right, return the first capture. -/
def regexFind (alts opts : List (List Char)) (cs : List Char) : Option (List Char) :=
  match matchAt alts opts cs with
  | some r => some r
  | none =>
    match cs with
    | [] => none
    | _ :: rest => regexFind alts opts rest

/-- Run an extractor regex and apply `.trim()` to the capture, as
`match ? match[1].trim() : null` does. -/
def extractWith (alts opts : List String) (input : List Char) : Option String :=
  (regexFind (alts.map String.data) (opts.map String.data) input).map
    (fun cap => String.mk (trimList cap))

/-- Extractor `extractDirectoryName`: `/(?:folder|directory|dir)\s+(?:called|named)?\s*['"]?([^'"]+)['"]?/i`. -/
def extractDirectoryName (input : List Char) : Option String :=
  extractWith ["folder", "directory", "dir"] ["called", "named"] input

/-- Extractor `extractFileName`: `/(?:file)\s+(?:called|named)?\s*['"]?([^'"]+)['"]?/i`. -/
def extractFileName (input : List Char) : Option String :=
  extractWith ["file"] ["called", "named"] input

/-- Extractor `extractSearchTerm`: `/(?:find|search)\s+(?:for)?\s*['"]?([^'"]+)['"]?/i`. -/
def extractSearchTerm (input : List Char) : Option String :=
  extractWith ["find", "search"] ["for"] input

/-- Extractor `extractPackageName`: `/(?:install|add)\s+(?:package)?\s*['"]?([^'"]+)['"]?/i`. -/
def extractPackageName (input : List Char) : Option String :=
  extractWith ["install", "add"] ["package"] input

/-! ## Pattern resolver (`CommandParserService.parseWithPatterns`) -/

/-- Predicate `matches`: some keyword of the list occurs in the input
(`keywords.some((keyword) => input.includes(keyword))`). -/
def matchesKw (input : List Char) (keywords : List String) : Bool :=
  keywords.any (fun k => isSubstr k.data input)

/-- The internal normalization `input.toLowerCase().trim()`. -/
def normalizeInput (s : String) : List Char :=
  (jsTrim (jsToLowerCase s)).data

/-- Commands pushed by the directory-creation rule. -/
def mkdirCommand (n : List Char) : CommandOption :=
  let dirName := extractDirectoryName n
  { command := "mkdir -p " ++ jsOrDefault dirName "new_directory"
    description := "Create directory: " ++ jsOrDefault dirName "new_directory"
    risk := "low" }

/-- Command pushed by the file-creation rule. -/
def touchCommand (n : List Char) : CommandOption :=
  let fileName := extractFileName n
  { command := "touch " ++ jsOrDefault fileName "new_file.txt"
    description := "Create empty file: " ++ jsOrDefault fileName "new_file.txt"
    risk := "low" }

/-- Command pushed by the file-deletion branch. -/
def rmFileCommand (n : List Char) : CommandOption :=
  let fileName := extractFileName n
  { command := "rm " ++ jsOrDefault fileName "filename"
    description := "Delete file: " ++ jsOrDefault fileName "filename"
    risk := "medium" }

/-- Command pushed by the directory-deletion branch. -/
def rmDirCommand (n : List Char) : CommandOption :=
  let dirName := extractDirectoryName n
  { command := "rm -rf " ++ jsOrDefault dirName "directory"
    description := "Delete directory and all contents: " ++ jsOrDefault dirName "directory"
    risk := "high" }

/-- First command pushed by the search/find rule. -/
def findCommand (n : List Char) : CommandOption :=
  let searchTerm := extractSearchTerm n
  { command := "find . -name \"*" ++ jsOrDefault searchTerm "search_term" ++ "*\""
    description := "Find files containing: " ++ jsOrDefault searchTerm "search_term"
    risk := "low" }

/-- Second command pushed by the search/find rule. -/
def grepCommand (n : List Char) : CommandOption :=
  let searchTerm := extractSearchTerm n
  { command := "grep -r \"" ++ jsOrDefault searchTerm "search_term" ++ "\" ."
    description := "Search for text in files: " ++ jsOrDefault searchTerm "search_term"
    risk := "low" }

/-- Commands pushed by the search/find rule. -/
def searchCommands (n : List Char) : List CommandOption :=
  [findCommand n, grepCommand n]

/-- Command pushed by the package-install rule. -/
def installCommand (n : List Char) : CommandOption :=
  let packageName := extractPackageName n
  { command := "pnpm install " ++ jsOrDefault packageName "package_name"
    description := "Install package: " ++ jsOrDefault packageName "package_name"
    risk := "medium" }

/-- The generic fallback returned when no rule pushed anything. -/
def fallbackCommands : List CommandOption :=
  [{ command := "ls -la", description := "List current directory contents", risk := "low" },
   { command := "pwd", description := "Show current directory path", risk := "low" },
   { command := "help", description := "Show available commands", risk := "low" }]

/-- The commands accumulated by the rule groups of `parseWithPatterns`,
in push order, before the empty-result fallback check. -/
def ruleCommands (n : List Char) : List CommandOption :=
  (if matchesKw n ["list", "show", "files", "directory", "dir"] then
    [{ command := "ls -la", description := "List all files and directories with details", risk := "low" },
     { command := "find . -type f -name \"*\" | head -20"
       description := "Find and list first 20 files in current directory", risk := "low" }]
   else []) ++
  (if matchesKw n ["create", "make", "new", "folder", "directory"] then [mkdirCommand n] else []) ++
  (if matchesKw n ["create", "make", "new", "file"] then [touchCommand n] else []) ++
  (if matchesKw n ["delete", "remove", "rm"] then
    (if matchesKw n ["file"] then [rmFileCommand n]
     else if matchesKw n ["directory", "folder"] then [rmDirCommand n]
     else [])
   else []) ++
  (if matchesKw n ["git", "status", "check"] then
    [{ command := "git status", description := "Show git repository status", risk := "low" }]
   else []) ++
  (if matchesKw n ["git", "add", "stage"] then
    [{ command := "git add .", description := "Stage all changes for commit", risk := "low" },
     { command := "git add -A", description := "Stage all changes including deletions", risk := "low" }]
   else []) ++
  (if matchesKw n ["git", "commit"] then
    [{ command := "git commit -m \"Update\"", description := "Commit staged changes with generic message", risk := "low" }]
   else []) ++
  (if matchesKw n ["git", "push"] then
    [{ command := "git push origin main", description := "Push commits to main branch", risk := "medium" },
     { command := "git push", description := "Push commits to current branch", risk := "medium" }]
   else []) ++
  (if matchesKw n ["git", "pull"] then
    [{ command := "git pull origin main", description := "Pull latest changes from main branch", risk := "medium" },
     { command := "git pull", description := "Pull latest changes from current branch", risk := "medium" }]
   else []) ++
  (if matchesKw n ["current", "directory", "where", "location"] then
    [{ command := "pwd", description := "Show current directory path", risk := "low" }]
   else []) ++
  (if matchesKw n ["disk", "space", "usage", "size"] then
    [{ command := "df -h", description := "Show disk space usage", risk := "low" },
     { command := "du -sh *", description := "Show size of files and directories", risk := "low" }]
   else []) ++
  (if matchesKw n ["processes", "running", "tasks"] then
    [{ command := "ps aux", description := "Show all running processes", risk := "low" },
     { command := "top", description := "Show real-time process activity", risk := "low" }]
   else []) ++
  (if matchesKw n ["find", "search"] then searchCommands n else []) ++
  (if matchesKw n ["install", "npm", "pnpm", "package"] then [installCommand n] else []) ++
  (if matchesKw n ["run", "start", "dev", "serve"] then
    [{ command := "pnpm run dev", description := "Start development server", risk := "low" },
     { command := "pnpm start", description := "Start application", risk := "low" }]
   else []) ++
  (if matchesKw n ["build", "compile"] then
    [{ command := "pnpm run build", description := "Build the application", risk := "low" }]
   else [])

/-- Resolver `CommandParserService.parseWithPatterns`: normalize the instruction,
run all rule groups, and fall back to the generic suggestions when no
rule pushed anything. -/
def parseWithPatterns (input : String) : List CommandOption :=
  let commands := ruleCommands (normalizeInput input)
  if commands = [] then fallbackCommands else commands

/-- Model of `s.startsWith(p)`: `p` is a prefix of `s`. -/
def strStartsWith (s p : String) : Bool :=
  p.data.isPrefixOf s.data

/-- Some rule group of the pattern resolver matches the normalized
instruction (the disjunction of the sixteen keyword tests, in source
order). -/
def anyRuleMatches (n : List Char) : Bool :=
  matchesKw n ["list", "show", "files", "directory", "dir"] ||
  matchesKw n ["create", "make", "new", "folder", "directory"] ||
  matchesKw n ["create", "make", "new", "file"] ||
  matchesKw n ["delete", "remove", "rm"] ||
  matchesKw n ["git", "status", "check"] ||
  matchesKw n ["git", "add", "stage"] ||
  matchesKw n ["git", "commit"] ||
  matchesKw n ["git", "push"] ||
  matchesKw n ["git", "pull"] ||
  matchesKw n ["current", "directory", "where", "location"] ||
  matchesKw n ["disk", "space", "usage", "size"] ||
  matchesKw n ["processes", "running", "tasks"] ||
  matchesKw n ["find", "search"] ||
  matchesKw n ["install", "npm", "pnpm", "package"] ||
  matchesKw n ["run", "start", "dev", "serve"] ||
  matchesKw n ["build", "compile"]

/-- The risk/shape invariant of a single resolver command: a `"high"`
risk only on a command starting with `rm -rf`, a risk that is one of
the three tiers, and non-empty command and description text. -/
def riskInvariant (c : CommandOption) : Prop :=
  (c.risk = "high" → strStartsWith c.command "rm -rf" = true) ∧
  (c.risk = "low" ∨ c.risk = "medium" ∨ c.risk = "high") ∧
  c.command ≠ "" ∧ c.description ≠ ""

instance (c : CommandOption) : Decidable (riskInvariant c) := by
  unfold riskInvariant
  infer_instance

/-! ## AI resolver (`OpenAIService`)

The HTTP exchange is an external collaborator; its outcome is a
parameter.  A JS exception is modelled as a `JsError` record carrying
the data the `catch` block of `convertToCommands` inspects: the message,
whether it is a `SyntaxError`, and the optional OpenAI error `code`.
The textual content of a reply is abstracted by its `JSON.parse`
outcome, and a parsed array element by its three string-typed fields,
each possibly absent. -/

/-- The data of a thrown JS error that `convertToCommands` inspects. -/
structure JsError where
  message : String
  isSyntaxError : Bool
  code : Option String
  deriving DecidableEq, Repr

/-- Model of `new Error(m)`: a plain error, not a `SyntaxError`, with no `code`. -/
def mkError (m : String) : JsError :=
  { message := m, isSyntaxError := false, code := none }

/-- One element of the parsed JSON array, before validation: the three
fields the loop reads, each absent or a string. -/
structure RawCommand where
  command : Option String
  description : Option String
  risk : Option String
  deriving DecidableEq, Repr

/-- The `JSON.parse` result: an array of elements, or some non-array
value. -/
inductive ParsedJson where
  | arr (elems : List RawCommand)
  | notArray
  deriving DecidableEq, Repr

instance {ε α : Type} [DecidableEq ε] [DecidableEq α] : DecidableEq (Except ε α) := fun a b =>
  match a, b with
  | .ok x, .ok y => if h : x = y then .isTrue (by rw [h]) else .isFalse (by simp [h])
  | .error x, .error y => if h : x = y then .isTrue (by rw [h]) else .isFalse (by simp [h])
  | .ok _, .error _ => .isFalse (by simp)
  | .error _, .ok _ => .isFalse (by simp)

/-- A completed chat reply: either it carries no (truthy) textual
content, or its content is abstracted by its `JSON.parse` outcome
(`Except.error` = `SyntaxError` with that message). -/
inductive AiReply where
  | noContent
  | content (parsed : Except String ParsedJson)
  deriving DecidableEq, Repr

/-- Model of `if (!['low','medium','high'].includes(cmd.risk)) cmd.risk = 'medium'`. -/
def coerceRisk (s : String) : String :=
  if s = "low" || s = "medium" || s = "high" then s else "medium"

/-- A validated element: the fields are the element's string values,
with the risk coerced. -/
def mapRawCommand (c : RawCommand) : CommandOption :=
  { command := c.command.getD ""
    description := c.description.getD ""
    risk := coerceRisk (c.risk.getD "") }

/-- The validation loop of `convertToCommands`: reject the first element
with a falsy `command`, `description` or `risk`; coerce unrecognized
risk values to `"medium"`. -/
def validateCommands : List RawCommand → Except JsError (List CommandOption)
  | [] => .ok []
  | c :: rest =>
    if !jsTruthy c.command || !jsTruthy c.description || !jsTruthy c.risk then
      .error (mkError "Invalid command structure from OpenAI")
    else
      match validateCommands rest with
      | .error e => .error e
      | .ok out => .ok (mapRawCommand c :: out)

/-- The body of the `try` block of `convertToCommands`, given the
outcome of the awaited API call. -/
def tryConvert (apiOutcome : Except JsError AiReply) : Except JsError (List CommandOption) :=
  match apiOutcome with
  | .error e => .error e
  | .ok .noContent => .error (mkError "No response from OpenAI")
  | .ok (.content (.error msg)) =>
      .error { message := msg, isSyntaxError := true, code := none }
  | .ok (.content (.ok .notArray)) =>
      .error (mkError "Invalid response format from OpenAI")
  | .ok (.content (.ok (.arr elems))) => validateCommands elems

/-- The `catch` block of `convertToCommands`: translate a `SyntaxError`
and the two known OpenAI error codes, and wrap everything else. -/
def wrapCatch (e : JsError) : JsError :=
  if e.isSyntaxError then mkError "Invalid JSON response from OpenAI"
  else if e.code = some "insufficient_quota" then
    mkError "OpenAI API quota exceeded. Please check your billing."
  else if e.code = some "invalid_api_key" then
    mkError "Invalid OpenAI API key. Please check your OPENAI_API_KEY environment variable."
  else mkError ("OpenAI API error: " ++ e.message)

/-- The error thrown before the `try` block when no API key was present
at construction. -/
def notConfiguredError : JsError :=
  mkError "OpenAI API key not configured. Please set OPENAI_API_KEY environment variable."

/-- Operation `OpenAIService.convertToCommands`: `configured` is
`this.openai !== null` (the credential was present at startup), and
`apiOutcome` is the outcome of the awaited
`chat.completions.create` call. -/
def convertToCommands (configured : Bool) (apiOutcome : Except JsError AiReply) :
    Except JsError (List CommandOption) :=
  if !configured then .error notConfiguredError
  else
    match tryConvert apiOutcome with
    | .ok cmds => .ok cmds
    | .error e => .error (wrapCatch e)

/-! ## Resolution orchestrator (`CommandParserService.parseNaturalLanguage`) -/

/-- Orchestrator `CommandParserService.parseNaturalLanguage`: try the AI resolver
when it is configured; on a thrown error or an empty result fall back
to the pattern resolver. -/
def parseNaturalLanguage (configured : Bool) (apiOutcome : Except JsError AiReply)
    (input : String) : List CommandOption :=
  if configured then
    match convertToCommands configured apiOutcome with
    | .ok commands => if commands.length > 0 then commands else parseWithPatterns input
    | .error _ => parseWithPatterns input
  else parseWithPatterns input

/-! ## Shell executor (`NaturalLanguageCommand.runShellCommand`) -/

/-- The structured result the executor resolves to. -/
structure ExecutionResult where
  success : Bool
  output : Option String
  error : Option String
  deriving DecidableEq, Repr

/-- What the spawned child process does first: either the `error` event
fires (launch failure) or the `close` event fires with an exit code
(`none` models `null`, i.e. termination by signal) and the accumulated
stream data. -/
inductive SpawnOutcome where
  | launchError (message : String)
  | exit (code : Option Int) (stdout : String) (stderr : String)
  deriving DecidableEq, Repr

/-- Model of `s.trim() || undefined` on accumulated stream output. -/
def trimOrUndefined (s : String) : Option String :=
  let t := jsTrim s
  if t = "" then none else some t

/-- Executor `NaturalLanguageCommand.runShellCommand`: resolve (never reject)
with a structured result; success is exit code zero; a launch error
resolves to a failure carrying the error message. -/
def runShellCommand (command : String) (outcome : SpawnOutcome) : ExecutionResult :=
  match outcome with
  | .launchError msg => { success := false, output := none, error := some msg }
  | .exit code out err =>
      { success := code = some 0
        output := trimOrUndefined out
        error := trimOrUndefined err }

/-! ## Interactive session (`NaturalLanguageCommand.run`)

`run` binds `commandOptions` to the value of
`this.commandParser.parseNaturalLanguage(instruction)` *without*
`await`, so the bound value is a `Promise`, not an array.  The model
keeps that distinction: `JsVal` is either a promise wrapping the
eventual array or an actual array, and property access on it follows
JS semantics (`length` of a promise is `undefined`; a promise has no
`forEach` method, so calling it throws a `TypeError`). -/

/-- A JS value that is either a pending promise of a command array or
an actual command array. -/
inductive JsVal where
  | promise (v : List CommandOption)
  | arr (v : List CommandOption)
  deriving DecidableEq, Repr

/-- Property access `v.length`: `undefined` on a promise. -/
def jsLength : JsVal → Option Nat
  | .promise _ => none
  | .arr l => some l.length

/-- Whether `v.forEach` is callable. -/
def jsHasForEach : JsVal → Bool
  | .promise _ => false
  | .arr _ => true

/-- Indexing `v[i]`: `undefined` outside an actual array or out of range. -/
def jsIndex : JsVal → Int → Option CommandOption
  | .promise _, _ => none
  | .arr l, i => if h : 0 ≤ i ∧ i < l.length then some (l.get ⟨i.toNat, by omega⟩) else none

/-- Observable session steps, in order of occurrence. -/
inductive Event where
  | log (line : String)
  | promptText (message : String)
  | promptList (message : String)
  | promptConfirm (message : String)
  | execute (command : String)
  deriving DecidableEq, Repr

/-- How the session ends: a normal return, or an uncaught thrown
`TypeError`. -/
inductive SessionOutcome where
  | returned
  | typeError (message : String)
  deriving DecidableEq, Repr

/-- Session `NaturalLanguageCommand.run`, with the interactive collaborators as
parameters: `instrOpt`/`dry` are the parsed CLI options, `userInstr` the
answer to the instruction prompt, `selection` the answer to the list
prompt (`-1` = cancel), `confirmAns` the answer to the confirmation
prompt, and `parsed` the value the un-awaited parser promise would
eventually resolve to.  Returns the emitted events and the outcome. -/
def sessionRun (instrOpt : Option String) (dry : Bool) (userInstr : String)
    (selection : Int) (confirmAns : Bool) (parsed : List CommandOption) :
    List Event × SessionOutcome :=
  let banner : List Event := [.log "🚀 Natural Language CLI",
    .log "Convert your instructions into bash commands\n"]
  let (askEv, _instruction) :=
    match instrOpt with
    | some i => (([] : List Event), i)
    | none => ([Event.promptText "What would you like to do?"], userInstr)
  let commandOptions : JsVal := .promise parsed
  if jsLength commandOptions = some 0 then
    (banner ++ askEv ++ [.log "❌ No matching commands found for your instruction."],
     .returned)
  else if !jsHasForEach commandOptions then
    (banner ++ askEv, .typeError "commandOptions.forEach is not a function")
  else
    let displayEvs := (match commandOptions with
      | .arr l => l.map (fun c => Event.log (c.command ++ " - " ++ c.description))
      | .promise _ => [])
    let selEv := [Event.promptList "Select a command to run:"]
    if selection = -1 then
      (banner ++ askEv ++ displayEvs ++ selEv ++ [.log "Operation cancelled."], .returned)
    else
      match jsIndex commandOptions selection with
      | none =>
        (banner ++ askEv ++ displayEvs ++ selEv,
         .typeError "Cannot read properties of undefined")
      | some selectedCommand =>
        let detailEvs := [Event.log ("Command: " ++ selectedCommand.command),
          Event.log ("Description: " ++ selectedCommand.description),
          Event.log ("Risk Level: " ++ selectedCommand.risk)]
        if dry then
          (banner ++ askEv ++ displayEvs ++ selEv ++ detailEvs ++
            [.log "\n🔍 Dry run mode - command will not be executed."], .returned)
        else
          let confEv := [Event.promptConfirm "Execute this command?"]
          if !confirmAns then
            (banner ++ askEv ++ displayEvs ++ selEv ++ detailEvs ++ confEv ++
              [.log "Command execution cancelled."], .returned)
          else
            (banner ++ askEv ++ displayEvs ++ selEv ++ detailEvs ++ confEv ++
              [.execute selectedCommand.command], .returned)

/-! ## Shared lemmas -/

/-- The pattern resolver never returns an empty list. -/
theorem parseWithPatterns_ne_nil (s : String) : parseWithPatterns s ≠ [] := by
  unfold parseWithPatterns
  by_cases h : ruleCommands (normalizeInput s) = [] <;> simp [h, fallbackCommands]

theorem char_toNat_ofNat (n : Nat) (h : n.isValidChar) : (Char.ofNat n).toNat = n := by
  unfold Char.toNat Char.ofNat
  rw [dif_pos h]
  unfold Char.ofNatAux
  exact BitVec.toNat_ofNatLt _ _

theorem toLowerCh_toNat_of_upper {c : Char} (h : 65 ≤ c.toNat ∧ c.toNat ≤ 90) :
    (toLowerCh c).toNat = c.toNat + 32 := by
  unfold toLowerCh
  rw [if_pos h]
  exact char_toNat_ofNat _ (Or.inl (by omega))

theorem toLowerCh_of_not_upper {c : Char} (h : ¬(65 ≤ c.toNat ∧ c.toNat ≤ 90)) :
    toLowerCh c = c := by
  unfold toLowerCh
  rw [if_neg h]

/-- ASCII lowercasing is idempotent. -/
theorem toLowerCh_idem (c : Char) : toLowerCh (toLowerCh c) = toLowerCh c := by
  by_cases h : 65 ≤ c.toNat ∧ c.toNat ≤ 90
  · have h1 := toLowerCh_toNat_of_upper h
    exact toLowerCh_of_not_upper (by omega)
  · rw [toLowerCh_of_not_upper h, toLowerCh_of_not_upper h]

/-- ASCII lowercasing preserves whitespace-ness. -/
theorem isWsCh_toLowerCh (c : Char) : isWsCh (toLowerCh c) = isWsCh c := by
  by_cases h : 65 ≤ c.toNat ∧ c.toNat ≤ 90
  · have h1 := toLowerCh_toNat_of_upper h
    have h97 : 97 ≤ (toLowerCh c).toNat := by omega
    have h65 : 65 ≤ c.toNat := h.1
    have hws1 : isWsCh (toLowerCh c) = false := by
      unfold isWsCh
      simp only [Bool.or_eq_false_iff, decide_eq_false_iff_not]
      refine ⟨⟨⟨?_, ?_⟩, ?_⟩, ?_⟩ <;>
        · intro he
          rw [he] at h97
          revert h97
          decide
    have hws2 : isWsCh c = false := by
      unfold isWsCh
      simp only [Bool.or_eq_false_iff, decide_eq_false_iff_not]
      refine ⟨⟨⟨?_, ?_⟩, ?_⟩, ?_⟩ <;>
        · intro he
          rw [he] at h65
          revert h65
          decide
    rw [hws1, hws2]
  · rw [toLowerCh_of_not_upper h]

/-- A list whose head (if any) falsifies `p` is unchanged by
`dropWhile p`. -/
theorem dropWhile_head_false_eq_self {p : Char → Bool} {l : List Char}
    (h : ∀ (hne : l ≠ []), p (l.head hne) = false) : l.dropWhile p = l := by
  apply List.dropWhile_eq_self_iff.mpr
  intro hl
  rw [List.get_mk_zero hl]
  simp [h (List.ne_nil_of_length_pos hl)]

theorem dropWhile_idem (p : Char → Bool) (l : List Char) :
    (l.dropWhile p).dropWhile p = l.dropWhile p := by
  apply dropWhile_head_false_eq_self
  intro hne
  exact List.head_dropWhile_not p l hne

/-- Trimming is idempotent. -/
theorem trimList_idem (l : List Char) : trimList (trimList l) = trimList l := by
  unfold trimList
  set A := l.dropWhile isWsCh with hA
  set B := (A.reverse.dropWhile isWsCh).reverse with hB
  have hBrev : B.reverse = A.reverse.dropWhile isWsCh := by
    rw [hB, List.reverse_reverse]
  have hdwB : B.dropWhile isWsCh = B := by
    apply dropWhile_head_false_eq_self
    intro hne
    have hpre : B <+: A := by
      apply List.reverse_suffix.mp
      rw [hBrev]
      exact List.dropWhile_suffix isWsCh
    rcases hpre with ⟨t, ht⟩
    have hAne : A ≠ [] := by
      intro h0
      rw [h0] at ht
      exact hne (List.append_eq_nil.mp ht).1
    have hheads : A.head? = B.head? := by
      rw [← ht]
      exact List.head?_append_of_ne_nil B hne
    have hAhead : isWsCh (A.head hAne) = false :=
      List.head_dropWhile_not isWsCh l hAne
    have : some (A.head hAne) = some (B.head hne) := by
      rw [← List.head?_eq_head hAne, ← List.head?_eq_head hne, hheads]
    rw [← Option.some.injEq _ _ |>.mp this]
    exact hAhead
  rw [hdwB, hBrev, dropWhile_idem, ← hBrev, List.reverse_reverse]

/-- Every character of the trimmed list occurs in the original list. -/
theorem mem_trimList {c : Char} {l : List Char} (h : c ∈ trimList l) : c ∈ l := by
  unfold trimList at h
  rw [List.mem_reverse] at h
  have h1 := (List.dropWhile_sublist isWsCh).subset h
  rw [List.mem_reverse] at h1
  exact (List.dropWhile_sublist isWsCh).subset h1

/-- Lowercasing an already-lowercased-and-trimmed list changes
nothing. -/
theorem map_toLowerCh_trimList (l : List Char) :
    (trimList (l.map toLowerCh)).map toLowerCh = trimList (l.map toLowerCh) := by
  have h : ∀ a ∈ trimList (l.map toLowerCh), toLowerCh a = id a := by
    intro a ha
    rcases List.mem_map.mp (mem_trimList ha) with ⟨b, _, rfl⟩
    exact toLowerCh_idem b
  rw [List.map_congr_left h, List.map_id]

/-- Every risk produced by the coercion is one of the three tiers. -/
theorem coerceRisk_mem (s : String) :
    coerceRisk s = "low" ∨ coerceRisk s = "medium" ∨ coerceRisk s = "high" := by
  unfold coerceRisk
  split
  · rename_i h
    simp only [Bool.or_eq_true, decide_eq_true_eq] at h
    rcases h with (h | h) | h <;> simp [h]
  · simp

/-- A risk string that is nonempty but unrecognized is coerced to
`"medium"`. -/
theorem coerceRisk_of_unrecognized (r : String) (h1 : r ≠ "low") (h2 : r ≠ "medium")
    (h3 : r ≠ "high") : coerceRisk r = "medium" := by
  unfold coerceRisk
  simp [h1, h2, h3]

/-- Validation fails with the structure error as soon as some element
has a falsy (absent or empty) field. -/
theorem validateCommands_error_of_falsy (es : List RawCommand)
    (h : ∃ c ∈ es, jsTruthy c.command = false ∨ jsTruthy c.description = false ∨
      jsTruthy c.risk = false) :
    validateCommands es = .error (mkError "Invalid command structure from OpenAI") := by
  induction es with
  | nil => simp at h
  | cons c rest ih =>
    by_cases hc : (!jsTruthy c.command || !jsTruthy c.description || !jsTruthy c.risk) = true
    · simp [validateCommands, hc]
    · have hrest : ∃ d ∈ rest, jsTruthy d.command = false ∨ jsTruthy d.description = false ∨
          jsTruthy d.risk = false := by
        rcases h with ⟨d, hd, hfal⟩
        rcases List.mem_cons.mp hd with rfl | hdrest
        · exfalso
          apply hc
          rcases hfal with h' | h' | h' <;> simp [h']
        · exact ⟨d, hdrest, hfal⟩
      simp only [validateCommands, hc, if_false, Bool.not_eq_true] at *
      rw [ih hrest]
      simp [hc]

/-- Validation succeeds on a list of fully-truthy elements and maps each
element pointwise. -/
theorem validateCommands_ok_of_truthy (es : List RawCommand)
    (h : ∀ c ∈ es, jsTruthy c.command ∧ jsTruthy c.description ∧ jsTruthy c.risk) :
    validateCommands es = .ok (es.map mapRawCommand) := by
  induction es with
  | nil => simp [validateCommands]
  | cons c rest ih =>
    have hc := h c (List.mem_cons_self c rest)
    have hrest := ih (fun d hd => h d (List.mem_cons_of_mem c hd))
    simp [validateCommands, hc.1, hc.2.1, hc.2.2, hrest]

/-- Every command that survives validation carries one of the three risk
tiers. -/
theorem validateCommands_ok_risk (es : List RawCommand) (out : List CommandOption)
    (h : validateCommands es = .ok out) :
    ∀ c ∈ out, c.risk = "low" ∨ c.risk = "medium" ∨ c.risk = "high" := by
  induction es generalizing out with
  | nil =>
    simp only [validateCommands, Except.ok.injEq] at h
    subst h
    simp
  | cons c rest ih =>
    simp only [validateCommands] at h
    by_cases hc : (!jsTruthy c.command || !jsTruthy c.description || !jsTruthy c.risk) = true
    · rw [if_pos hc] at h
      exact absurd h (by simp)
    · rw [if_neg hc] at h
      revert h
      cases hrest : validateCommands rest with
      | error e => intro h; simp at h
      | ok out' =>
        intro h
        simp only [Except.ok.injEq] at h
        subst h
        intro d hd
        rcases List.mem_cons.mp hd with rfl | hout
        · exact coerceRisk_mem _
        · exact ih out' hrest d hout

/-- On a configured service and a parsed array reply,
`convertToCommands` is validation with the catch-block wrapping of a
validation error. -/
theorem convertToCommands_arr (es : List RawCommand) :
    convertToCommands true (.ok (.content (.ok (.arr es)))) =
      match validateCommands es with
      | .ok cmds => Except.ok cmds
      | .error e => Except.error (wrapCatch e) := rfl

/-- Every command `convertToCommands` ever returns carries one of the
three risk tiers, whatever the configuration and API outcome. -/
theorem convertToCommands_ok_risk (cfg : Bool) (api : Except JsError AiReply)
    (out : List CommandOption) (h : convertToCommands cfg api = .ok out) :
    ∀ c ∈ out, c.risk = "low" ∨ c.risk = "medium" ∨ c.risk = "high" := by
  cases cfg with
  | false => simp [convertToCommands] at h
  | true =>
    cases api with
    | error e => simp [convertToCommands, tryConvert] at h
    | ok reply =>
      cases reply with
      | noContent => simp [convertToCommands, tryConvert] at h
      | content parsed =>
        cases parsed with
        | error msg => simp [convertToCommands, tryConvert] at h
        | ok json =>
          cases json with
          | notArray => simp [convertToCommands, tryConvert] at h
          | arr es =>
            rw [convertToCommands_arr] at h
            revert h
            cases hv : validateCommands es with
            | error e => intro h; simp at h
            | ok cmds =>
              intro h
              simp only [Except.ok.injEq] at h
              subst h
              exact validateCommands_ok_risk es cmds hv

/-- Definition of `parseWithPatterns`, unfolded. -/
theorem parseWithPatterns_eq (input : String) :
    parseWithPatterns input =
      if ruleCommands (normalizeInput input) = [] then fallbackCommands
      else ruleCommands (normalizeInput input) := rfl

theorem isPrefixOf_append {p q : List Char} (l : List Char) (h : p.isPrefixOf q = true) :
    p.isPrefixOf (q ++ l) = true := by
  induction p generalizing q with
  | nil => simp [List.isPrefixOf]
  | cons x xs ih =>
    cases q with
    | nil => simp [List.isPrefixOf] at h
    | cons y ys =>
      rw [List.cons_append]
      simp only [List.isPrefixOf, Bool.and_eq_true] at h ⊢
      exact ⟨h.1, ih h.2⟩

theorem strStartsWith_append (a b p : String) (h : strStartsWith a p = true) :
    strStartsWith (a ++ b) p = true := by
  unfold strStartsWith at h ⊢
  rw [String.data_append]
  exact isPrefixOf_append _ h

theorem append_ne_empty (a b : String) (ha : a ≠ "") : a ++ b ≠ "" := by
  intro h
  apply ha
  have hd := congrArg String.data h
  rw [String.data_append, show ("" : String).data = [] from rfl] at hd
  exact String.ext_iff.mpr (by rw [(List.append_eq_nil.mp hd).1])

theorem forall_mem_ite_nil {α : Type} (p : α → Prop) (b : Prop) [Decidable b] (l : List α)
    (h : ∀ x ∈ l, p x) : ∀ x ∈ (if b then l else []), p x := by
  split
  · exact h
  · intro x hx
    simp at hx

theorem countP_ite_nil {α : Type} (p : α → Bool) (b : Prop) [Decidable b] (l : List α) :
    List.countP p (if b then l else []) = if b then List.countP p l else 0 := by
  split <;> simp

theorem riskInvariant_mkdirCommand (n : List Char) : riskInvariant (mkdirCommand n) := by
  have hrisk : (mkdirCommand n).risk = "low" := rfl
  refine ⟨?_, Or.inl hrisk, ?_, ?_⟩
  · intro h
    rw [hrisk] at h
    exact absurd h (by decide)
  · exact append_ne_empty _ _ (by decide)
  · exact append_ne_empty _ _ (by decide)

theorem riskInvariant_touchCommand (n : List Char) : riskInvariant (touchCommand n) := by
  have hrisk : (touchCommand n).risk = "low" := rfl
  refine ⟨?_, Or.inl hrisk, ?_, ?_⟩
  · intro h
    rw [hrisk] at h
    exact absurd h (by decide)
  · exact append_ne_empty _ _ (by decide)
  · exact append_ne_empty _ _ (by decide)

theorem riskInvariant_rmFileCommand (n : List Char) : riskInvariant (rmFileCommand n) := by
  have hrisk : (rmFileCommand n).risk = "medium" := rfl
  refine ⟨?_, Or.inr (Or.inl hrisk), ?_, ?_⟩
  · intro h
    rw [hrisk] at h
    exact absurd h (by decide)
  · exact append_ne_empty _ _ (by decide)
  · exact append_ne_empty _ _ (by decide)

theorem riskInvariant_rmDirCommand (n : List Char) : riskInvariant (rmDirCommand n) := by
  have hrisk : (rmDirCommand n).risk = "high" := rfl
  refine ⟨?_, Or.inr (Or.inr hrisk), ?_, ?_⟩
  · intro _
    exact strStartsWith_append _ _ _ (by decide)
  · exact append_ne_empty _ _ (by decide)
  · exact append_ne_empty _ _ (by decide)

theorem riskInvariant_installCommand (n : List Char) : riskInvariant (installCommand n) := by
  have hrisk : (installCommand n).risk = "medium" := rfl
  refine ⟨?_, Or.inr (Or.inl hrisk), ?_, ?_⟩
  · intro h
    rw [hrisk] at h
    exact absurd h (by decide)
  · exact append_ne_empty _ _ (by decide)
  · exact append_ne_empty _ _ (by decide)

theorem riskInvariant_findCommand (n : List Char) : riskInvariant (findCommand n) := by
  have hrisk : (findCommand n).risk = "low" := rfl
  refine ⟨?_, Or.inl hrisk, ?_, ?_⟩
  · intro h
    rw [hrisk] at h
    exact absurd h (by decide)
  · exact append_ne_empty _ _ (append_ne_empty _ _ (by decide))
  · exact append_ne_empty _ _ (by decide)

theorem riskInvariant_grepCommand (n : List Char) : riskInvariant (grepCommand n) := by
  have hrisk : (grepCommand n).risk = "low" := rfl
  refine ⟨?_, Or.inl hrisk, ?_, ?_⟩
  · intro h
    rw [hrisk] at h
    exact absurd h (by decide)
  · exact append_ne_empty _ _ (append_ne_empty _ _ (by decide))
  · exact append_ne_empty _ _ (by decide)

theorem riskInvariant_searchCommands (n : List Char) :
    ∀ c ∈ searchCommands n, riskInvariant c := by
  intro c hc
  rcases List.mem_cons.mp hc with rfl | hc
  · exact riskInvariant_findCommand n
  · rcases List.mem_cons.mp hc with rfl | hc
    · exact riskInvariant_grepCommand n
    · simp at hc

/-- Every command pushed by a rule group satisfies the risk/shape
invariant. -/
theorem ruleCommands_invariant (n : List Char) : ∀ c ∈ ruleCommands n, riskInvariant c := by
  unfold ruleCommands
  simp only [List.forall_mem_append]
  refine ⟨⟨⟨⟨⟨⟨⟨⟨⟨⟨⟨⟨⟨⟨⟨?_, ?_⟩, ?_⟩, ?_⟩, ?_⟩, ?_⟩, ?_⟩, ?_⟩, ?_⟩, ?_⟩, ?_⟩, ?_⟩, ?_⟩, ?_⟩, ?_⟩, ?_⟩
  · exact forall_mem_ite_nil _ _ _ (by decide)
  · exact forall_mem_ite_nil _ _ _ (List.forall_mem_singleton.mpr (riskInvariant_mkdirCommand n))
  · exact forall_mem_ite_nil _ _ _ (List.forall_mem_singleton.mpr (riskInvariant_touchCommand n))
  · apply forall_mem_ite_nil
    split
    · exact List.forall_mem_singleton.mpr (riskInvariant_rmFileCommand n)
    · split
      · exact List.forall_mem_singleton.mpr (riskInvariant_rmDirCommand n)
      · intro x hx
        simp at hx
  · exact forall_mem_ite_nil _ _ _ (by decide)
  · exact forall_mem_ite_nil _ _ _ (by decide)
  · exact forall_mem_ite_nil _ _ _ (by decide)
  · exact forall_mem_ite_nil _ _ _ (by decide)
  · exact forall_mem_ite_nil _ _ _ (by decide)
  · exact forall_mem_ite_nil _ _ _ (by decide)
  · exact forall_mem_ite_nil _ _ _ (by decide)
  · exact forall_mem_ite_nil _ _ _ (by decide)
  · exact forall_mem_ite_nil _ _ _ (riskInvariant_searchCommands n)
  · exact forall_mem_ite_nil _ _ _ (List.forall_mem_singleton.mpr (riskInvariant_installCommand n))
  · exact forall_mem_ite_nil _ _ _ (by decide)
  · exact forall_mem_ite_nil _ _ _ (by decide)

/-- Every command the pattern resolver returns satisfies the risk/shape
invariant. -/
theorem parseWithPatterns_riskInvariant (input : String) :
    ∀ c ∈ parseWithPatterns input, riskInvariant c := by
  intro c hc
  rw [parseWithPatterns_eq] at hc
  by_cases h : ruleCommands (normalizeInput input) = []
  · rw [if_pos h] at hc
    exact (by decide : ∀ x ∈ fallbackCommands, riskInvariant x) c hc
  · rw [if_neg h] at hc
    exact ruleCommands_invariant _ c hc

/-! ## Claim theorems -/

/-- C1: the resolution orchestrator never fails and never returns an
empty list: when the AI call throws, or returns an empty list, or is
not configured, the result is exactly the pattern resolver's output for
the same instruction. -/
theorem resolve_total_and_falls_back (cfg : Bool) (api : Except JsError AiReply)
    (input : String) :
    parseNaturalLanguage cfg api input ≠ [] ∧
    (∀ e, convertToCommands cfg api = .error e →
      parseNaturalLanguage cfg api input = parseWithPatterns input) ∧
    (convertToCommands cfg api = .ok [] →
      parseNaturalLanguage cfg api input = parseWithPatterns input) ∧
    (cfg = false → parseNaturalLanguage cfg api input = parseWithPatterns input) := by
  unfold parseNaturalLanguage
  cases cfg with
  | false => simp [parseWithPatterns_ne_nil]
  | true =>
    cases h : convertToCommands true api with
    | error e => simp [h, parseWithPatterns_ne_nil]
    | ok cmds =>
      cases cmds with
      | nil => simp [h, parseWithPatterns_ne_nil]
      | cons c cs => simp [h, parseWithPatterns_ne_nil]

/-- Witness for C1 at concrete inputs: a no-content reply makes the
configured orchestrator fall back, and an unconfigured one resolves by
patterns directly. -/
theorem resolve_total_and_falls_back_witness :
    parseNaturalLanguage true (.ok .noContent) "list files" = parseWithPatterns "list files" ∧
    parseNaturalLanguage false (.ok .noContent) "list files" = parseWithPatterns "list files" ∧
    parseNaturalLanguage true (.ok .noContent) "list files" ≠ [] := by
  have h := resolve_total_and_falls_back true (.ok .noContent) "list files"
  have h' := resolve_total_and_falls_back false (.ok .noContent) "list files"
  exact ⟨h.2.1 (mkError "OpenAI API error: No response from OpenAI") rfl,
         h'.2.2.2 rfl, h.1⟩

/-- C2: when the AI resolver is configured and returns a non-empty
array, the orchestrator returns exactly that array, unmodified. -/
theorem resolve_returns_ai_verbatim (api : Except JsError AiReply)
    (cmds : List CommandOption) (input : String)
    (h1 : convertToCommands true api = .ok cmds) (h2 : cmds ≠ []) :
    parseNaturalLanguage true api input = cmds := by
  unfold parseNaturalLanguage
  have hlen : cmds.length > 0 := List.length_pos.mpr h2
  simp [h1, hlen]

/-- Witness for C2: a valid one-element AI reply is returned verbatim. -/
theorem resolve_returns_ai_verbatim_witness :
    parseNaturalLanguage true
      (.ok (.content (.ok (.arr [⟨some "ls -la", some "List all files", some "low"⟩]))))
      "anything" = [⟨"ls -la", "List all files", "low"⟩] := by
  exact resolve_returns_ai_verbatim _ _ _ rfl (by simp)

/-- C5 counterexample: an element whose `risk` field is present (the
empty string, which is none of the three tiers) is nevertheless
rejected with the structure error — both by the validation loop and by
`convertToCommands` as a whole — because the falsiness check fires on
empty strings; it is not kept and coerced as the claim states. -/
theorem validate_rejects_present_empty_risk :
    validateCommands [⟨some "ls -la", some "List files", some ""⟩] =
      .error (mkError "Invalid command structure from OpenAI") ∧
    convertToCommands true (.ok (.content (.ok (.arr
        [⟨some "ls -la", some "List files", some ""⟩])))) =
      .error (mkError "OpenAI API error: Invalid command structure from OpenAI") ∧
    (RawCommand.mk (some "ls -la") (some "List files") (some "")).risk = some "" ∧
    ("" ≠ "low" ∧ "" ≠ "medium" ∧ "" ≠ "high") := by
  exact ⟨rfl, rfl, rfl, by decide⟩

/-- C5 (amended): on a parsed array reply, `convertToCommands` fails
with the structure error (wrapped by the catch block, like the other
internal errors) when some element has an absent or empty `command`,
`description`, or `risk` field; when every field is present and
non-empty it succeeds, keeping every element and coercing a nonempty
unrecognized risk string to `"medium"`; and every command
`convertToCommands` ever returns carries one of the three risk
tiers. -/
theorem convertToCommands_structure (es : List RawCommand) :
    ((∃ c ∈ es, c.command = none ∨ c.command = some "" ∨ c.description = none ∨
        c.description = some "" ∨ c.risk = none ∨ c.risk = some "") →
      convertToCommands true (.ok (.content (.ok (.arr es)))) =
        .error (mkError "OpenAI API error: Invalid command structure from OpenAI")) ∧
    ((∀ c ∈ es, jsTruthy c.command ∧ jsTruthy c.description ∧ jsTruthy c.risk) →
      convertToCommands true (.ok (.content (.ok (.arr es)))) = .ok (es.map mapRawCommand)) ∧
    (∀ (cfg : Bool) (api : Except JsError AiReply) (out : List CommandOption),
      convertToCommands cfg api = .ok out →
      ∀ c ∈ out, c.risk = "low" ∨ c.risk = "medium" ∨ c.risk = "high") ∧
    (∀ r : String, r ≠ "low" → r ≠ "medium" → r ≠ "high" → coerceRisk r = "medium") := by
  refine ⟨?_, ?_, convertToCommands_ok_risk, fun r => coerceRisk_of_unrecognized r⟩
  · intro h
    have hfal : ∃ c ∈ es, jsTruthy c.command = false ∨ jsTruthy c.description = false ∨
        jsTruthy c.risk = false := by
      rcases h with ⟨c, hc, hf⟩
      refine ⟨c, hc, ?_⟩
      rcases hf with h0 | h0 | h0 | h0 | h0 | h0
      · exact Or.inl (by rw [h0]; rfl)
      · exact Or.inl (by rw [h0]; decide)
      · exact Or.inr (Or.inl (by rw [h0]; rfl))
      · exact Or.inr (Or.inl (by rw [h0]; decide))
      · exact Or.inr (Or.inr (by rw [h0]; rfl))
      · exact Or.inr (Or.inr (by rw [h0]; decide))
    rw [convertToCommands_arr, validateCommands_error_of_falsy es hfal]
    rfl
  · intro h
    rw [convertToCommands_arr, validateCommands_ok_of_truthy es h]

/-- Witness for C5: a nonempty unrecognized risk is kept by
`convertToCommands` and coerced to `"medium"`, and a present but empty
description is rejected with the wrapped structure error. -/
theorem convertToCommands_structure_witness :
    convertToCommands true (.ok (.content (.ok (.arr
        [⟨some "ls -la", some "List files", some "weird"⟩])))) =
      .ok [⟨"ls -la", "List files", "medium"⟩] ∧
    convertToCommands true (.ok (.content (.ok (.arr
        [⟨some "ls -la", some "", some "low"⟩])))) =
      .error (mkError "OpenAI API error: Invalid command structure from OpenAI") := by
  have h1 := convertToCommands_structure [⟨some "ls -la", some "List files", some "weird"⟩]
  have h2 := convertToCommands_structure [⟨some "ls -la", some "", some "low"⟩]
  refine ⟨?_, h2.1 ⟨_, List.mem_cons_self _ _, Or.inr (Or.inr (Or.inr (Or.inl rfl)))⟩⟩
  have := h1.2.1 (by
    intro c hc
    rcases List.mem_cons.mp hc with rfl | h0
    · exact ⟨by decide, by decide, by decide⟩
    · simp at h0)
  simpa [mapRawCommand, coerceRisk] using this

/-- C6: each failure mode of `convertToCommands` produces its own
distinct error and no commands; the not-configured failure does not
depend on any network outcome. -/
theorem convertToCommands_error_modes :
    (∀ api, convertToCommands false api = .error notConfiguredError) ∧
    convertToCommands true (.ok .noContent) =
      .error (mkError "OpenAI API error: No response from OpenAI") ∧
    (∀ msg, convertToCommands true (.ok (.content (.error msg))) =
      .error (mkError "Invalid JSON response from OpenAI")) ∧
    convertToCommands true (.ok (.content (.ok .notArray))) =
      .error (mkError "OpenAI API error: Invalid response format from OpenAI") ∧
    (notConfiguredError ≠ mkError "OpenAI API error: No response from OpenAI" ∧
     notConfiguredError ≠ mkError "Invalid JSON response from OpenAI" ∧
     notConfiguredError ≠ mkError "OpenAI API error: Invalid response format from OpenAI" ∧
     mkError "OpenAI API error: No response from OpenAI" ≠
       mkError "Invalid JSON response from OpenAI" ∧
     mkError "OpenAI API error: No response from OpenAI" ≠
       mkError "OpenAI API error: Invalid response format from OpenAI" ∧
     mkError "Invalid JSON response from OpenAI" ≠
       mkError "OpenAI API error: Invalid response format from OpenAI") := by
  refine ⟨fun api => rfl, rfl, fun msg => rfl, rfl, ?_⟩
  refine ⟨?_, ?_, ?_, ?_, ?_, ?_⟩ <;> decide

/-- Witness for C6: the not-configured error at a concrete reply. -/
theorem convertToCommands_error_modes_witness :
    convertToCommands false (.ok .noContent) = .error notConfiguredError ∧
    convertToCommands true (.ok (.content (.error "Unexpected token i in JSON"))) =
      .error (mkError "Invalid JSON response from OpenAI") := by
  have h := convertToCommands_error_modes
  exact ⟨h.1 (.ok .noContent), h.2.2.1 "Unexpected token i in JSON"⟩

/-- C7 (code evaluation at the failing input): with instruction
`"list files"` and the dry flag set, the session throws a `TypeError`
right after the banner — the parser promise is never awaited, so
`commandOptions.forEach` does not exist — instead of displaying the
selected command's details; no prompt is issued and nothing is
executed. -/
theorem sessionRun_dry_run_throws :
    sessionRun (some "list files") true "" 0 false (parseWithPatterns "list files") =
      ([.log "🚀 Natural Language CLI", .log "Convert your instructions into bash commands\n"],
       .typeError "commandOptions.forEach is not a function") := by
  rfl

/-- C8: the shell executor always resolves to a structured result:
success holds exactly for exit code zero, and a launch failure resolves
to a failure result carrying the launch error's message. -/
theorem runShellCommand_structured (cmd : String) (o : SpawnOutcome) :
    ((runShellCommand cmd o).success = true ↔ ∃ out err, o = .exit (some 0) out err) ∧
    (∀ msg, o = .launchError msg →
      runShellCommand cmd o = { success := false, output := none, error := some msg }) := by
  cases o with
  | launchError m =>
    constructor
    · simp [runShellCommand]
    · intro msg hmsg
      cases hmsg
      rfl
  | exit code out err =>
    constructor
    · simp only [runShellCommand, decide_eq_true_eq]
      constructor
      · intro h
        exact ⟨out, err, by rw [h]⟩
      · rintro ⟨o', e', h⟩
        cases h
        rfl
    · intro msg hmsg
      cases hmsg

/-- Witness for C8: a launch failure and a clean exit, concretely. -/
theorem runShellCommand_structured_witness :
    runShellCommand "ls -la" (.launchError "spawn sh ENOENT") =
      { success := false, output := none, error := some "spawn sh ENOENT" } ∧
    (runShellCommand "ls -la" (.exit (some 0) "ok\n" "")).success = true := by
  have h := runShellCommand_structured "ls -la" (.launchError "spawn sh ENOENT")
  have h' := runShellCommand_structured "ls -la" (.exit (some 0) "ok\n" "")
  exact ⟨h.2 "spawn sh ENOENT" rfl, h'.1.mpr ⟨"ok\n", "", rfl⟩⟩

/-- C3 counterexample: `"delete the file in the folder"` contains a
deletion keyword and `"folder"`, yet the resolver's output contains no
command mentioning `rm -rf` at all — the `file` branch of the deletion
rule preempts the directory branch. -/
theorem patterns_file_preempts_rm_rf :
    matchesKw (normalizeInput "delete the file in the folder")
      ["delete", "remove", "rm"] = true ∧
    matchesKw (normalizeInput "delete the file in the folder")
      ["directory", "folder"] = true ∧
    (parseWithPatterns "delete the file in the folder").countP
      (fun c => isSubstr ("rm -rf".data) c.command.data) = 0 := by
  refine ⟨by decide, by decide, by decide⟩

/-- C3 (amended): for every instruction whose normalized form contains
a deletion keyword together with `"directory"` or `"folder"` and does
not contain `"file"`, the resolver's output contains exactly one
command tagged `"high"`, and every `"high"`-tagged command in it starts
with `rm -rf`. -/
theorem patterns_dir_deletion_one_high (input : String)
    (hdel : matchesKw (normalizeInput input) ["delete", "remove", "rm"] = true)
    (hnofile : matchesKw (normalizeInput input) ["file"] = false)
    (hdir : matchesKw (normalizeInput input) ["directory", "folder"] = true) :
    (parseWithPatterns input).countP (fun c => c.risk == "high") = 1 ∧
    ∀ c ∈ parseWithPatterns input, c.risk = "high" →
      strStartsWith c.command "rm -rf" = true := by
  have hcount :
      (ruleCommands (normalizeInput input)).countP (fun c => c.risk == "high") = 1 := by
    unfold ruleCommands
    simp only [List.countP_append, countP_ite_nil]
    rw [hdel, hnofile, hdir]
    simp [mkdirCommand, touchCommand, rmFileCommand, rmDirCommand, installCommand,
      searchCommands, findCommand, grepCommand, List.countP_cons]
  have hne : ruleCommands (normalizeInput input) ≠ [] := by
    intro h0
    rw [h0] at hcount
    simp at hcount
  refine ⟨?_, ?_⟩
  · rw [parseWithPatterns_eq, if_neg hne]
    exact hcount
  · intro c hc hhigh
    exact (parseWithPatterns_riskInvariant input c hc).1 hhigh

/-- Witness for C3 (amended) at `"delete my folder"`. -/
theorem patterns_dir_deletion_one_high_witness :
    (parseWithPatterns "delete my folder").countP (fun c => c.risk == "high") = 1 := by
  have h := patterns_dir_deletion_one_high "delete my folder"
    (by decide) (by decide) (by decide)
  exact h.1

/-- C4: an instruction matching no rule group resolves to exactly the
three generic low-risk suggestions, and the pattern resolver never
returns an empty list. -/
theorem patterns_generic_fallback (s : String) :
    (anyRuleMatches (normalizeInput s) = false →
      parseWithPatterns s =
        [⟨"ls -la", "List current directory contents", "low"⟩,
         ⟨"pwd", "Show current directory path", "low"⟩,
         ⟨"help", "Show available commands", "low"⟩]) ∧
    parseWithPatterns s ≠ [] := by
  refine ⟨?_, parseWithPatterns_ne_nil s⟩
  intro h
  unfold anyRuleMatches at h
  simp only [Bool.or_eq_false_iff] at h
  obtain ⟨⟨⟨⟨⟨⟨⟨⟨⟨⟨⟨⟨⟨⟨⟨h1, h2⟩, h3⟩, h4⟩, h5⟩, h6⟩, h7⟩, h8⟩, h9⟩, h10⟩,
    h11⟩, h12⟩, h13⟩, h14⟩, h15⟩, h16⟩ := h
  have hr : ruleCommands (normalizeInput s) = [] := by
    unfold ruleCommands
    simp [h1, h2, h3, h4, h5, h6, h7, h8, h9, h10, h11, h12, h13, h14, h15, h16]
  rw [parseWithPatterns_eq, if_pos hr]
  rfl

/-- Witness for C4: `"hello"` matches nothing and gets the generic
fallback. -/
theorem patterns_generic_fallback_witness :
    anyRuleMatches (normalizeInput "hello") = false ∧
    parseWithPatterns "hello" =
      [⟨"ls -la", "List current directory contents", "low"⟩,
       ⟨"pwd", "Show current directory path", "low"⟩,
       ⟨"help", "Show available commands", "low"⟩] :=
  ⟨by decide, (patterns_generic_fallback "hello").1 (by decide)⟩

/-- C9: on every input, every command the pattern resolver emits
satisfies the risk/shape invariant: a `"high"` tag appears only on a
command starting with `rm -rf`, every risk is one of the three tiers,
and command and description text are non-empty. -/
theorem patterns_high_risk_only_rm_rf (input : String) :
    ∀ c ∈ parseWithPatterns input, riskInvariant c :=
  parseWithPatterns_riskInvariant input

/-- Witness for C9: the directory-deletion command emitted for
`"delete my folder"`. -/
theorem patterns_high_risk_only_rm_rf_witness :
    riskInvariant ⟨"rm -rf directory", "Delete directory and all contents: directory", "high"⟩ := by
  have h := patterns_high_risk_only_rm_rf "delete my folder"
  exact h _ (by decide)

/-- C10: the pattern resolver is invariant under external
normalization: resolving an instruction equals resolving its
lowercased-then-trimmed form. -/
theorem patterns_normalization_invariant (s : String) :
    parseWithPatterns s = parseWithPatterns (jsTrim (jsToLowerCase s)) := by
  have key : normalizeInput (jsTrim (jsToLowerCase s)) = normalizeInput s := by
    show trimList (List.map toLowerCh (trimList (List.map toLowerCh s.data))) =
      trimList (List.map toLowerCh s.data)
    rw [map_toLowerCh_trimList, trimList_idem]
  rw [parseWithPatterns_eq, parseWithPatterns_eq, key]

end AiCli
